import Mathlib

set_option maxHeartbeats 1000000

/-!
# Verification of the notion-edit conversion engine

A shallow embedding of the core of the `notion-edit` repository:

* the document-tree data model (`src/markdown/tag.rs`),
* the markup serializer `get_pulldown_cmark_events` (`src/markdown/to_cmark.rs`),
* the markup event parser `PulldownCMarkEventParser` (`src/markdown/from_cmark.rs`),
* the remote-to-markup transducer `NotionToMarkdownParser` (`src/markdown/notion_interop.rs`),
* the recursive fetch `get_all_block_children` (`src/notion.rs`),
* the synchronization functions `erase_page` (`src/main.rs`), `create_blocks` and
  `delete_block` (`src/notion_api/client.rs`).

Rust panics (`assert!`, `unreachable!`, `todo!`, `unimplemented!`, `expect`) are modelled
as explicit failure values, kept distinct from errors that the Rust code returns in a
`Result::Err`.  Iterator-consuming loops are modelled as state-passing functions over
`List`; where the Rust recursion is not structural, the Lean definition carries a fuel
parameter and a dedicated `outOfFuel` failure (unreachable for the inputs the theorems
talk about, since the Rust recursion depth is bounded by the input size).
-/

/-! ## Document tree data model (src/markdown/tag.rs) -/

/-- `HeadingLevel` from src/markdown/tag.rs. -/
inductive HeadingLevel where
  | h1
  | h2
  | h3
deriving DecidableEq, Repr

/-- `RichText` from src/markdown/tag.rs: an opaque plain-text run. -/
structure RichText where
  text : String
deriving DecidableEq, Repr

/-- `Paragraph` from src/markdown/tag.rs. -/
structure Paragraph where
  text : List RichText
deriving DecidableEq, Repr

mutual

/-- `Tag` from src/markdown/tag.rs: the document-tree node. -/
inductive Tag where
  | paragraph (p : Paragraph)
  | heading (level : HeadingLevel) (text : List RichText)
  | orderedList (items : List OrderedListItem)

/-- `OrderedListItem` from src/markdown/tag.rs. -/
inductive OrderedListItem where
  | mk (text : List RichText) (children : List Tag)

end

/-- Field accessor for `OrderedListItem.text`. -/
def OrderedListItem.text : OrderedListItem → List RichText
  | .mk t _ => t

/-- Field accessor for `OrderedListItem.children`. -/
def OrderedListItem.children : OrderedListItem → List Tag
  | .mk _ c => c

/-! ## pulldown_cmark event model

The subset of `pulldown_cmark::Event` / `pulldown_cmark::Tag` that the repository
produces and consumes.  Constructors not used by the repository are collapsed into
`other` catch-alls, matching the catch-all arms of the Rust `match`es. -/

/-- `pulldown_cmark::HeadingLevel` (H1..H6). -/
inductive CHeadingLevel where
  | h1
  | h2
  | h3
  | h4
  | h5
  | h6
deriving DecidableEq, Repr

/-- `pulldown_cmark::Tag`: heading (level, fragment identifier, classes), paragraph,
list (with optional start number; `some` means an ordered list), item, and a
catch-all for the remaining constructors. -/
inductive CTag where
  | heading (level : CHeadingLevel) (id : Option String) (classes : List String)
  | paragraph
  | list (startNumber : Option Nat)
  | item
  | other (name : String)
deriving DecidableEq, Repr

/-- `pulldown_cmark::Event`: start/end tag events, text runs, and a catch-all for
the remaining event kinds.  `Event::End` is rendered `stop` because `end` is a
keyword in Lean. -/
inductive Event where
  | start (tag : CTag)
  | stop (tag : CTag)
  | text (s : String)
  | other (name : String)
deriving DecidableEq, Repr

/-! ## Markup serializer (src/markdown/to_cmark.rs) -/

/-- `From<&HeadingLevel> for pulldown_cmark::HeadingLevel` (src/markdown/to_cmark.rs). -/
def HeadingLevel.toCmark : HeadingLevel → CHeadingLevel
  | .h1 => .h1
  | .h2 => .h2
  | .h3 => .h3

/-- `rich_text_to_events` (src/markdown/to_cmark.rs): each `RichText` becomes a
single `Event::Text` carrying its text. -/
def rich_text_to_events (textParts : List RichText) : List Event :=
  textParts.map (fun rt => Event.text rt.text)

mutual

/-- `get_pulldown_cmark_events` (src/markdown/to_cmark.rs): serializes one `Tag`
to a pulldown_cmark event sequence. -/
def get_pulldown_cmark_events : Tag → List Event
  | .heading level text =>
      Event.start (.heading level.toCmark none []) ::
        (rich_text_to_events text ++ [Event.stop (.heading level.toCmark none [])])
  | .paragraph p =>
      Event.start .paragraph :: (rich_text_to_events p.text ++ [Event.stop .paragraph])
  | .orderedList items =>
      Event.start (.list (some 1)) ::
        (ordered_list_items_events items ++ [Event.stop (.list (some 1))])

/-- The event sequence of the items of an ordered list, in order (the `for item
in items` loop of `get_pulldown_cmark_events`). -/
def ordered_list_items_events : List OrderedListItem → List Event
  | [] => []
  | item :: items => ordered_list_item_events item ++ ordered_list_items_events items

/-- The event sequence of a single ordered-list item: `Start(Item)`, the item text
wrapped in a paragraph, the serialized children, `End(Item)`. -/
def ordered_list_item_events : OrderedListItem → List Event
  | .mk text children =>
      Event.start .item :: Event.start .paragraph ::
        (rich_text_to_events text ++ [Event.stop .paragraph] ++
          tag_list_events children ++ [Event.stop .item])

/-- The concatenated event sequences of a list of tags (the `flat_map` of the
item-children loop). -/
def tag_list_events : List Tag → List Event
  | [] => []
  | t :: ts => get_pulldown_cmark_events t ++ tag_list_events ts

end

/-- Serialization of a whole document: `document.iter().flat_map(get_pulldown_cmark_events)`. -/
def serialize_document (tags : List Tag) : List Event :=
  tag_list_events tags

/-! ## Markup parser (src/markdown/from_cmark.rs)

`ParseError` is the error enum the Rust parser returns; `ParseFailure` additionally
records panics (`assert!` / `assert_eq!` / `unreachable!` / `unimplemented!` /
`expect` calls), which abort the Rust process instead of being returned, and the
embedding-only `outOfFuel`. -/

/-- `ParseError` from src/markdown/from_cmark.rs. -/
inductive ParseError where
  | unexpectedHeadingLevel (level : CHeadingLevel)
  | unimplementedTag (tag : CTag)
deriving DecidableEq, Repr

/-- Failure modes of the embedded parser: a returned `ParseError`, a panic with its
message, or fuel exhaustion (an embedding artifact, unreachable on the inputs the
theorems quantify over). -/
inductive ParseFailure where
  | parseError (e : ParseError)
  | panic (message : String)
  | outOfFuel
deriving DecidableEq, Repr

/-- `parse_text` (src/markdown/from_cmark.rs): collects consecutive `Event::Text`
runs into `RichText` values, returning them with the unconsumed remainder of the
event stream. -/
def parse_text : List Event → List RichText × List Event
  | .text s :: rest =>
      let (parsed, remaining) := parse_text rest
      (⟨s⟩ :: parsed, remaining)
  | events => ([], events)

/-- `parse_heading` (src/markdown/from_cmark.rs).  The `Event::Start(Heading)` was
already consumed; `originalHeadingLevel` is the level it carried. -/
def parse_heading (originalHeadingLevel : CHeadingLevel) (events : List Event) :
    Except ParseFailure (Tag × List Event) := do
  let headingLevel ←
    match originalHeadingLevel with
    | .h1 => Except.ok HeadingLevel.h1
    | .h2 => Except.ok HeadingLevel.h2
    | .h3 => Except.ok HeadingLevel.h3
    | lvl => Except.error (ParseFailure.parseError (.unexpectedHeadingLevel lvl))
  let (text, rest) := parse_text events
  match text with
  | [] => Except.error (ParseFailure.panic "empty heading")
  | _ =>
    match rest with
    | [] =>
        Except.error
          (ParseFailure.panic "unexpected end of events, expected end of heading")
    | Event.stop (.heading _ _ _) :: rest2 =>
        Except.ok (Tag.heading headingLevel text, rest2)
    | _ =>
        Except.error
          (ParseFailure.panic "start heading should have a matching end heading event")

/-- `parse_paragraph` (src/markdown/from_cmark.rs).  The `Event::Start(Paragraph)`
was already consumed. -/
def parse_paragraph (events : List Event) : Except ParseFailure (Paragraph × List Event) :=
  let (text, rest) := parse_text events
  match text with
  | [] => Except.error (ParseFailure.panic "empty paragraph")
  | _ =>
    match rest with
    | Event.stop .paragraph :: rest2 => Except.ok (⟨text⟩, rest2)
    | _ => Except.error (ParseFailure.panic "end of paragraph")

mutual

/-- `parse_single_event` (src/markdown/from_cmark.rs): dispatches on the event that
the caller just consumed. -/
def parse_single_event (fuel : Nat) (event : Event) (events : List Event) :
    Except ParseFailure (Tag × List Event) :=
  match fuel with
  | 0 => Except.error ParseFailure.outOfFuel
  | fuel + 1 =>
    match event with
    | .start (.heading originalHeadingLevel none _) =>
        parse_heading originalHeadingLevel events
    | .start (.list (some startNumber)) => do
        let (items, rest) ← parse_list_items fuel events
        match rest with
        | [] => Except.error (ParseFailure.panic "end of list")
        | e :: rest2 =>
            if e = Event.stop (.list (some startNumber)) then
              Except.ok (Tag.orderedList items, rest2)
            else Except.error (ParseFailure.panic "end of list tag")
    | .start .paragraph => do
        let (p, rest) ← parse_paragraph events
        Except.ok (Tag.paragraph p, rest)
    | .start tag => Except.error (ParseFailure.parseError (.unimplementedTag tag))
    | .stop _ =>
        Except.error
          (ParseFailure.panic "end events should be handled in start event handlers")
    | .text _ =>
        Except.error
          (ParseFailure.panic "text should be handled in start event handlers")
    | .other _ => Except.error (ParseFailure.panic "unhandled event")

/-- The `while next_if_eq(Start(Item))` loop of the ordered-list arm of
`parse_single_event`: parses consecutive items, stopping at the first event that
is not `Start(Item)`. -/
def parse_list_items (fuel : Nat) (events : List Event) :
    Except ParseFailure (List OrderedListItem × List Event) :=
  match fuel with
  | 0 => Except.error ParseFailure.outOfFuel
  | fuel + 1 =>
    match events with
    | Event.start .item :: rest => do
        let (item, rest2) ← parse_ordered_list_item fuel rest
        let (items, rest3) ← parse_list_items fuel rest2
        Except.ok (item :: items, rest3)
    | _ => Except.ok ([], events)

/-- `parse_ordered_list_item` (src/markdown/from_cmark.rs).  The `Start(Item)`
event was already consumed. -/
def parse_ordered_list_item (fuel : Nat) (events : List Event) :
    Except ParseFailure (OrderedListItem × List Event) :=
  match fuel with
  | 0 => Except.error ParseFailure.outOfFuel
  | fuel + 1 =>
    match events with
    | [] =>
        Except.error
          (ParseFailure.panic
            "unexpected end of events, expected list item to have some content")
    | Event.start .paragraph :: rest => do
        let (p, rest2) ← parse_paragraph rest
        let (children, rest3) ← parse_item_children fuel rest2
        Except.ok (OrderedListItem.mk p.text children, rest3)
    | Event.text _ :: _ => do
        let (text, rest2) := parse_text events
        let (children, rest3) ← parse_item_children fuel rest2
        Except.ok (OrderedListItem.mk text children, rest3)
    | _ =>
        Except.error
          (ParseFailure.panic "list items must have paragraph or text immediately inside")

/-- The child-collecting loop of `parse_ordered_list_item`: parses events until the
matching `End(Item)` event. -/
def parse_item_children (fuel : Nat) (events : List Event) :
    Except ParseFailure (List Tag × List Event) :=
  match fuel with
  | 0 => Except.error ParseFailure.outOfFuel
  | fuel + 1 =>
    match events with
    | [] =>
        Except.error
          (ParseFailure.panic "abrupt end of events - the end item event should still appear")
    | e :: rest =>
        if e = Event.stop .item then Except.ok ([], rest)
        else do
          let (t, rest2) ← parse_single_event fuel e rest
          let (ts, rest3) ← parse_item_children fuel rest2
          Except.ok (t :: ts, rest3)

end

/-- The `while let Some(event) = next()` loop of `PulldownCMarkEventParser::parse`. -/
def parse_events (fuel : Nat) (events : List Event) : Except ParseFailure (List Tag) :=
  match fuel with
  | 0 => Except.error ParseFailure.outOfFuel
  | fuel + 1 =>
    match events with
    | [] => Except.ok []
    | event :: rest => do
        let (t, rest2) ← parse_single_event fuel event rest
        let ts ← parse_events fuel rest2
        Except.ok (t :: ts)

/-- `PulldownCMarkEventParser::parse` (src/markdown/from_cmark.rs).  The fuel
`2 * events.length + 2` dominates the recursion depth of the Rust parser: along
every chain of nested calls, at least one event is consumed within every two
call levels (the only non-consuming step is the dispatch from
`parse_single_event` into its ordered-list loop), so `outOfFuel` is never
reached. -/
def parse (events : List Event) : Except ParseFailure (List Tag) :=
  parse_events (2 * events.length + 2) events

/-! ## C1: round-trip of serialize/parse

`claimed_invariant_*` formalizes the data-model invariants exactly as the claim
states them (non-empty heading/paragraph text, non-empty ordered lists);
`valid_*` additionally requires every `OrderedListItem` to carry at least one
`RichText` run, which the counterexample below shows is necessary. -/

mutual

/-- The data-model invariants as stated by the claim, on one tag. -/
def claimed_invariant_tag : Tag → Bool
  | .paragraph p => !p.text.isEmpty
  | .heading _ text => !text.isEmpty
  | .orderedList items => !items.isEmpty && claimed_invariant_items items

/-- The claimed invariants on a list of items. -/
def claimed_invariant_items : List OrderedListItem → Bool
  | [] => true
  | i :: is => claimed_invariant_item i && claimed_invariant_items is

/-- The claimed invariants on one item (note: no constraint on the item text). -/
def claimed_invariant_item : OrderedListItem → Bool
  | .mk _ children => claimed_invariant_tags children

/-- The claimed invariants on a list of tags. -/
def claimed_invariant_tags : List Tag → Bool
  | [] => true
  | t :: ts => claimed_invariant_tag t && claimed_invariant_tags ts

end

mutual

/-- Amended invariants on one tag (also requiring non-empty item text). -/
def valid_tag : Tag → Bool
  | .paragraph p => !p.text.isEmpty
  | .heading _ text => !text.isEmpty
  | .orderedList items => !items.isEmpty && valid_items items

/-- Amended invariants on a list of items. -/
def valid_items : List OrderedListItem → Bool
  | [] => true
  | i :: is => valid_item i && valid_items is

/-- Amended invariants on one item: non-empty text, valid children. -/
def valid_item : OrderedListItem → Bool
  | .mk text children => !text.isEmpty && valid_tags children

/-- Amended invariants on a list of tags. -/
def valid_tags : List Tag → Bool
  | [] => true
  | t :: ts => valid_tag t && valid_tags ts

end

mutual

/-- Fuel sufficient for `parse_single_event` on the serialization of a tag. -/
def fuel_tag : Tag → Nat
  | .paragraph _ => 1
  | .heading _ _ => 1
  | .orderedList items => 1 + fuel_items items

/-- Fuel sufficient for `parse_list_items` on the serialization of these items. -/
def fuel_items : List OrderedListItem → Nat
  | [] => 1
  | i :: is => 1 + max (fuel_item i) (fuel_items is)

/-- Fuel sufficient for `parse_ordered_list_item` on this item's serialization. -/
def fuel_item : OrderedListItem → Nat
  | .mk _ children => 1 + fuel_tags children

/-- Fuel sufficient for `parse_item_children` / `parse_events` on the
serialization of these tags. -/
def fuel_tags : List Tag → Nat
  | [] => 1
  | t :: ts => 1 + max (fuel_tag t) (fuel_tags ts)

end

theorem fuel_tag_pos (t : Tag) : 1 ≤ fuel_tag t := by
  cases t <;> simp [fuel_tag]

theorem fuel_items_pos (items : List OrderedListItem) : 1 ≤ fuel_items items := by
  cases items <;> simp [fuel_items]

theorem fuel_item_pos (i : OrderedListItem) : 1 ≤ fuel_item i := by
  cases i <;> simp [fuel_item]

theorem fuel_tags_pos (ts : List Tag) : 1 ≤ fuel_tags ts := by
  cases ts <;> simp [fuel_tags]

/-- Every serialized tag starts with a `Start` event. -/
theorem gpce_start (t : Tag) :
    ∃ ct es, get_pulldown_cmark_events t = Event.start ct :: es := by
  cases t <;> exact ⟨_, _, rfl⟩

/-- Every serialized tag spans at least two events. -/
theorem gpce_length_pos (t : Tag) : 2 ≤ (get_pulldown_cmark_events t).length := by
  cases t <;> simp [get_pulldown_cmark_events]

/-- An item's serialization spans at least four events. -/
theorem item_events_length (i : OrderedListItem) :
    4 ≤ (ordered_list_item_events i).length := by
  cases i
  simp [ordered_list_item_events]
  omega

mutual

/-- The fuel measure of a tag is dominated by its serialized length. -/
theorem fuel_tag_le (t : Tag) : fuel_tag t ≤ (get_pulldown_cmark_events t).length := by
  cases t with
  | paragraph p => simp [fuel_tag, get_pulldown_cmark_events]
  | heading lvl text => simp [fuel_tag, get_pulldown_cmark_events]
  | orderedList items =>
      have h := fuel_items_le items
      simp only [fuel_tag, get_pulldown_cmark_events, List.length_cons, List.length_append,
        List.length_singleton]
      omega

/-- The fuel measure of an item list is dominated by its serialized length plus one. -/
theorem fuel_items_le (items : List OrderedListItem) :
    fuel_items items ≤ (ordered_list_items_events items).length + 1 := by
  cases items with
  | nil => simp [fuel_items, ordered_list_items_events]
  | cons i is =>
      have h1 := fuel_item_le i
      have h2 := fuel_items_le is
      have h3 := item_events_length i
      simp only [fuel_items, ordered_list_items_events, List.length_append]
      omega

/-- The fuel measure of an item is strictly below its serialized length. -/
theorem fuel_item_le (i : OrderedListItem) :
    fuel_item i + 1 ≤ (ordered_list_item_events i).length := by
  cases i with
  | mk text children =>
      have h := fuel_tags_le children
      simp only [fuel_item, ordered_list_item_events, List.length_cons, List.length_append,
        List.length_singleton]
      omega

/-- The fuel measure of a tag list is dominated by its serialized length plus one. -/
theorem fuel_tags_le (ts : List Tag) :
    fuel_tags ts ≤ (tag_list_events ts).length + 1 := by
  cases ts with
  | nil => simp [fuel_tags, tag_list_events]
  | cons t ts =>
      have h1 := fuel_tag_le t
      have h2 := fuel_tags_le ts
      have h3 := gpce_length_pos t
      simp only [fuel_tags, tag_list_events, List.length_append]
      omega

end

/-- Proof helper: run the parser on the head event of a nonempty stream (the
caller of `parse_single_event` always consumes the head event first). -/
def parse_first_event (fuel : Nat) : List Event → Except ParseFailure (Tag × List Event)
  | [] => Except.error (ParseFailure.panic "no event")
  | e :: es => parse_single_event fuel e es

/-- `parse_text` consumes exactly the serialized text runs, stopping at a `stop`
event. -/
theorem parse_text_stop (text : List RichText) (ct : CTag) (rest : List Event) :
    parse_text (rich_text_to_events text ++ (Event.stop ct :: rest)) =
      (text, Event.stop ct :: rest) := by
  induction text with
  | nil => simp [rich_text_to_events, parse_text]
  | cons rt ts ih =>
      simp only [rich_text_to_events, List.map_cons, List.cons_append] at ih ⊢
      simp only [parse_text]
      rw [ih]

/-- `parse_paragraph` inverts the serialization of a non-empty paragraph body. -/
theorem parse_paragraph_rte (text : List RichText) (hne : text ≠ []) (rest : List Event) :
    parse_paragraph (rich_text_to_events text ++ (Event.stop .paragraph :: rest)) =
      Except.ok (⟨text⟩, rest) := by
  unfold parse_paragraph
  rw [parse_text_stop]
  cases text with
  | nil => exact absurd rfl hne
  | cons a as => simp

/-- `parse_heading` inverts the serialization of a non-empty heading body. -/
theorem parse_heading_rte (lvl : HeadingLevel) (text : List RichText) (hne : text ≠ [])
    (rest : List Event) :
    parse_heading lvl.toCmark
        (rich_text_to_events text ++ (Event.stop (.heading lvl.toCmark none []) :: rest)) =
      Except.ok (Tag.heading lvl text, rest) := by
  cases lvl <;>
    · unfold parse_heading HeadingLevel.toCmark
      rw [parse_text_stop]
      cases text with
      | nil => exact absurd rfl hne
      | cons a as => rfl

mutual

/-- The parser inverts the serializer on a single valid tag (with arbitrary
following events). -/
theorem rt_parse_tag (t : Tag) (h : valid_tag t = true) :
    ∀ fuel rest, fuel_tag t ≤ fuel →
      parse_first_event fuel (get_pulldown_cmark_events t ++ rest) = Except.ok (t, rest) := by
  intro fuel rest hfuel
  cases t with
  | paragraph p =>
      cases p with
      | mk txt =>
          have hne : txt ≠ [] := by
            simp [valid_tag] at h
            simpa [List.isEmpty_iff] using h
          cases fuel with
          | zero => simp [fuel_tag] at hfuel
          | succ f =>
              simp only [get_pulldown_cmark_events, List.cons_append, List.append_assoc,
                List.singleton_append, List.nil_append, parse_first_event, parse_single_event]
              rw [parse_paragraph_rte txt hne rest]
              rfl
  | heading lvl txt =>
      have hne : txt ≠ [] := by
        simp [valid_tag] at h
        simpa [List.isEmpty_iff] using h
      cases fuel with
      | zero => simp [fuel_tag] at hfuel
      | succ f =>
          simp only [get_pulldown_cmark_events, List.cons_append, List.append_assoc,
            List.singleton_append, List.nil_append, parse_first_event, parse_single_event]
          rw [parse_heading_rte lvl txt hne rest]
  | orderedList items =>
      have hvi : valid_items items = true := by
        simp [valid_tag] at h
        exact h.2
      cases fuel with
      | zero =>
          have := fuel_tag_pos (Tag.orderedList items)
          omega
      | succ f =>
          have hle : fuel_items items ≤ f := by
            simp only [fuel_tag] at hfuel
            omega
          simp only [get_pulldown_cmark_events, List.cons_append, List.append_assoc,
            List.singleton_append, List.nil_append, parse_first_event, parse_single_event]
          rw [rt_parse_items items hvi f (.list (some 1)) rest hle]
          rfl

/-- The item loop of the parser inverts the serialization of a valid item list
(the following event is the closing `stop` of the enclosing list). -/
theorem rt_parse_items (items : List OrderedListItem) (h : valid_items items = true) :
    ∀ fuel ct rest, fuel_items items ≤ fuel →
      parse_list_items fuel (ordered_list_items_events items ++ (Event.stop ct :: rest)) =
        Except.ok (items, Event.stop ct :: rest) := by
  intro fuel ct rest hfuel
  cases items with
  | nil =>
      cases fuel with
      | zero => simp [fuel_items] at hfuel
      | succ f => simp [ordered_list_items_events, parse_list_items]
  | cons i is =>
      have hvi : valid_item i = true ∧ valid_items is = true := by
        simpa [valid_items, Bool.and_eq_true] using h
      cases fuel with
      | zero =>
          have := fuel_items_pos (i :: is)
          omega
      | succ f =>
          have hle1 : fuel_item i ≤ f := by
            simp only [fuel_items] at hfuel
            have := Nat.le_max_left (fuel_item i) (fuel_items is)
            omega
          have hle2 : fuel_items is ≤ f := by
            simp only [fuel_items] at hfuel
            have := Nat.le_max_right (fuel_item i) (fuel_items is)
            omega
          cases i with
          | mk text children =>
              simp only [ordered_list_items_events, ordered_list_item_events,
                List.cons_append, List.append_assoc, List.singleton_append, List.nil_append,
                parse_list_items]
              have hitem := rt_parse_item (OrderedListItem.mk text children) hvi.1 f
                (ordered_list_items_events is ++ (Event.stop ct :: rest)) hle1
              simp only [OrderedListItem.text, OrderedListItem.children] at hitem
              rw [hitem]
              simp only [bind, Except.bind]
              rw [rt_parse_items is hvi.2 f ct rest hle2]

/-- `parse_ordered_list_item` inverts the serialization of a valid item (its
`Start(Item)` already consumed). -/
theorem rt_parse_item (i : OrderedListItem) (h : valid_item i = true) :
    ∀ fuel rest, fuel_item i ≤ fuel →
      parse_ordered_list_item fuel
        (Event.start .paragraph ::
          (rich_text_to_events i.text ++
            (Event.stop .paragraph ::
              (tag_list_events i.children ++ (Event.stop .item :: rest))))) =
        Except.ok (i, rest) := by
  intro fuel rest hfuel
  cases i with
  | mk text children =>
      have hne : text ≠ [] := by
        simp [valid_item, Bool.and_eq_true] at h
        simpa [List.isEmpty_iff] using h.1
      have hvc : valid_tags children = true := by
        simp [valid_item, Bool.and_eq_true] at h
        exact h.2
      cases fuel with
      | zero =>
          have := fuel_item_pos (OrderedListItem.mk text children)
          omega
      | succ f =>
          have hle : fuel_tags children ≤ f := by
            simp only [fuel_item] at hfuel
            omega
          simp only [OrderedListItem.text, OrderedListItem.children, parse_ordered_list_item]
          rw [parse_paragraph_rte text hne
            (tag_list_events children ++ (Event.stop .item :: rest))]
          simp only [bind, Except.bind]
          rw [rt_parse_children children hvc f rest hle]

/-- The child loop of `parse_ordered_list_item` inverts the serialization of a
valid tag list terminated by `End(Item)`. -/
theorem rt_parse_children (cs : List Tag) (h : valid_tags cs = true) :
    ∀ fuel rest, fuel_tags cs ≤ fuel →
      parse_item_children fuel (tag_list_events cs ++ (Event.stop .item :: rest)) =
        Except.ok (cs, rest) := by
  intro fuel rest hfuel
  cases cs with
  | nil =>
      cases fuel with
      | zero => simp [fuel_tags] at hfuel
      | succ f => simp [tag_list_events, parse_item_children]
  | cons c cs =>
      have hvc : valid_tag c = true ∧ valid_tags cs = true := by
        simpa [valid_tags, Bool.and_eq_true] using h
      cases fuel with
      | zero =>
          have := fuel_tags_pos (c :: cs)
          omega
      | succ f =>
          have hle1 : fuel_tag c ≤ f := by
            simp only [fuel_tags] at hfuel
            have := Nat.le_max_left (fuel_tag c) (fuel_tags cs)
            omega
          have hle2 : fuel_tags cs ≤ f := by
            simp only [fuel_tags] at hfuel
            have := Nat.le_max_right (fuel_tag c) (fuel_tags cs)
            omega
          obtain ⟨ct, es, hsplit⟩ := gpce_start c
          simp only [tag_list_events, List.append_assoc, hsplit, List.cons_append,
            parse_item_children]
          rw [if_neg (by simp)]
          have hfirst :
              parse_single_event f (Event.start ct)
                  (es ++ (tag_list_events cs ++ (Event.stop .item :: rest))) =
                Except.ok (c, tag_list_events cs ++ (Event.stop .item :: rest)) := by
            have := rt_parse_tag c hvc.1 f (tag_list_events cs ++ (Event.stop .item :: rest))
              hle1
            rw [hsplit] at this
            simpa [parse_first_event, List.cons_append, List.append_assoc] using this
          rw [hfirst]
          simp only [bind, Except.bind]
          rw [rt_parse_children cs hvc.2 f rest hle2]

end

/-- The top-level parse loop inverts the serializer on a valid document. -/
theorem rt_parse_events (ts : List Tag) (h : valid_tags ts = true) :
    ∀ fuel, fuel_tags ts ≤ fuel → parse_events fuel (tag_list_events ts) = Except.ok ts := by
  induction ts with
  | nil =>
      intro fuel hfuel
      cases fuel with
      | zero => simp [fuel_tags] at hfuel
      | succ f => simp [tag_list_events, parse_events]
  | cons t ts ih =>
      intro fuel hfuel
      have hvc : valid_tag t = true ∧ valid_tags ts = true := by
        simpa [valid_tags, Bool.and_eq_true] using h
      cases fuel with
      | zero =>
          have := fuel_tags_pos (t :: ts)
          omega
      | succ f =>
          have hle1 : fuel_tag t ≤ f := by
            simp only [fuel_tags] at hfuel
            have := Nat.le_max_left (fuel_tag t) (fuel_tags ts)
            omega
          have hle2 : fuel_tags ts ≤ f := by
            simp only [fuel_tags] at hfuel
            have := Nat.le_max_right (fuel_tag t) (fuel_tags ts)
            omega
          obtain ⟨ct, es, hsplit⟩ := gpce_start t
          simp only [tag_list_events, hsplit, List.cons_append, List.append_assoc,
            parse_events]
          have hfirst :
              parse_single_event f (Event.start ct) (es ++ tag_list_events ts) =
                Except.ok (t, tag_list_events ts) := by
            have := rt_parse_tag t hvc.1 f (tag_list_events ts) hle1
            rw [hsplit] at this
            simpa [parse_first_event, List.cons_append, List.append_assoc] using this
          rw [hfirst]
          simp only [bind, Except.bind]
          rw [ih hvc.2 f hle2]

/-- C1 (counterexample): the tag sequence `[OrderedList [item with empty text]]`
satisfies the invariants exactly as the claim states them (all headings and
paragraphs have non-empty text, the list is non-empty), yet parsing its
serialization does not return the original sequence: the serializer wraps the
empty item text in an empty markup paragraph, on which `parse_paragraph` panics
(`assert!(!text.is_empty(), "empty paragraph")`). -/
theorem c1_counterexample :
    claimed_invariant_tags [Tag.orderedList [OrderedListItem.mk [] []]] = true ∧
    parse (serialize_document [Tag.orderedList [OrderedListItem.mk [] []]]) =
      Except.error (ParseFailure.panic "empty paragraph") ∧
    parse (serialize_document [Tag.orderedList [OrderedListItem.mk [] []]]) ≠
      Except.ok [Tag.orderedList [OrderedListItem.mk [] []]] := by
  refine ⟨rfl, rfl, ?_⟩
  intro hcontr
  rw [show parse (serialize_document [Tag.orderedList [OrderedListItem.mk [] []]]) =
      Except.error (ParseFailure.panic "empty paragraph") from rfl] at hcontr
  exact Except.noConfusion hcontr

/-- C1 (amended): for every tag sequence satisfying the data-model invariants
together with the additional requirement that every ordered-list item carries at
least one rich-text run, parsing the concatenated serialization returns exactly
the original sequence. -/
theorem c1_roundtrip_amended (tags : List Tag) (h : valid_tags tags = true) :
    parse (serialize_document tags) = Except.ok tags := by
  have hle := fuel_tags_le tags
  exact rt_parse_events tags h (2 * (tag_list_events tags).length + 2) (by omega)

/-- Witness for `c1_roundtrip_amended` at the repository's own sample document. -/
theorem c1_roundtrip_amended_witness :
    valid_tags
        [Tag.heading .h1 [⟨"Summary"⟩],
         Tag.orderedList
           [OrderedListItem.mk [⟨"Watch some videos"⟩] [],
            OrderedListItem.mk [⟨"Another list item"⟩]
              [Tag.orderedList
                [OrderedListItem.mk [⟨"Second level list item"⟩]
                  [Tag.paragraph ⟨[⟨"extra description"⟩]⟩]]]],
         Tag.heading .h1 [⟨"Details"⟩],
         Tag.paragraph ⟨[⟨"More description"⟩]⟩] = true ∧
    parse
        (serialize_document
          [Tag.heading .h1 [⟨"Summary"⟩],
           Tag.orderedList
             [OrderedListItem.mk [⟨"Watch some videos"⟩] [],
              OrderedListItem.mk [⟨"Another list item"⟩]
                [Tag.orderedList
                  [OrderedListItem.mk [⟨"Second level list item"⟩]
                    [Tag.paragraph ⟨[⟨"extra description"⟩]⟩]]]],
           Tag.heading .h1 [⟨"Details"⟩],
           Tag.paragraph ⟨[⟨"More description"⟩]⟩]) =
      Except.ok
        [Tag.heading .h1 [⟨"Summary"⟩],
         Tag.orderedList
           [OrderedListItem.mk [⟨"Watch some videos"⟩] [],
            OrderedListItem.mk [⟨"Another list item"⟩]
              [Tag.orderedList
                [OrderedListItem.mk [⟨"Second level list item"⟩]
                  [Tag.paragraph ⟨[⟨"extra description"⟩]⟩]]]],
         Tag.heading .h1 [⟨"Details"⟩],
         Tag.paragraph ⟨[⟨"More description"⟩]⟩] :=
  ⟨rfl, c1_roundtrip_amended _ rfl⟩

/-! ## Remote-to-markup transducer (src/markdown/notion_interop.rs)

The `notion` crate types are modelled by `NRichText` (a plain text run, an
equation, or a mention) and `NBlock` (the block kinds the transducer matches on,
plus a catch-all for every other kind, which the transducer answers with a
`todo!` panic).  `NotionToMarkdownParser` holds a `ParserState`; iterating
`MarkdownTagIterator` to exhaustion is modelled by `process_blocks` followed by
the final `flush`. -/

/-- A panic raised inside the transducer (`unimplemented!` / `todo!`). -/
inductive InteropPanic where
  | panic (message : String)
deriving DecidableEq, Repr

/-- `notion::models::text::RichText`: a plain text run (only its `text.content`
is read), or an equation or mention (on which the conversion panics). -/
inductive NRichText where
  | plainText (content : String)
  | equation
  | mention
deriving DecidableEq, Repr

/-- `From<&notion RichText> for markdown RichText` (src/markdown/notion_interop.rs). -/
def rich_text_from_notion : NRichText → Except InteropPanic RichText
  | .plainText content => Except.ok ⟨content⟩
  | .equation => Except.error (.panic "Equations are not planned to be implemented")
  | .mention => Except.error (.panic "Mentions are not implemented yet")

/-- `NotionToMarkdownParser::parse_rich_text`: converts each run in order. -/
def parse_rich_text : List NRichText → Except InteropPanic (List RichText)
  | [] => Except.ok []
  | rt :: rts => do
      Except.ok ((← rich_text_from_notion rt) :: (← parse_rich_text rts))

/-- `notion::models::Block`, restricted to the kinds `parse_block` matches on,
with a catch-all `unsupported` for every other kind (the `_ => todo!` arm). -/
inductive NBlock where
  | heading1 (richText : List NRichText)
  | heading2 (richText : List NRichText)
  | heading3 (richText : List NRichText)
  | paragraph (richText : List NRichText)
  | numberedListItem (richText : List NRichText)
  | unsupported (kind : String)
deriving DecidableEq, Repr

/-- `BlockWithChildren` (src/notion_api/mod.rs and src/notion.rs): a block
together with its recursively fetched children. -/
inductive BlockWithChildren where
  | mk (block : NBlock) (children : List BlockWithChildren)

/-- Field accessor for `BlockWithChildren.block`. -/
def BlockWithChildren.block : BlockWithChildren → NBlock
  | .mk b _ => b

/-- Field accessor for `BlockWithChildren.children`. -/
def BlockWithChildren.children : BlockWithChildren → List BlockWithChildren
  | .mk _ c => c

/-- `ParserState` (src/markdown/notion_interop.rs). -/
inductive ParserState where
  | idle
  | processingList (items : List OrderedListItem)
  | withBufferedTag (tag : Tag)

/-- `NotionToMarkdownParser::maybe_flush_processed_tag`: `mem::replace`s the state
with `Idle` and reports the pending tag, if any. -/
def maybe_flush_processed_tag : ParserState → Option Tag × ParserState
  | .idle => (none, .idle)
  | .processingList items => (some (Tag.orderedList items), .idle)
  | .withBufferedTag t => (some t, .idle)

/-- `NotionToMarkdownParser::next_tag`: emit the pending tag and buffer the new
one, or emit the new one directly. -/
def next_tag (state : ParserState) (tag : Tag) : Option Tag × ParserState :=
  match maybe_flush_processed_tag state with
  | (some previousTag, _) => (some previousTag, .withBufferedTag tag)
  | (none, state2) => (some tag, state2)

/-- `NotionToMarkdownParser::flush`: the tag emitted once the input is exhausted. -/
def flush (state : ParserState) : Option Tag :=
  (maybe_flush_processed_tag state).1

mutual

/-- `NotionToMarkdownParser::parse_block` (src/markdown/notion_interop.rs). -/
def parse_block (state : ParserState) :
    BlockWithChildren → Except InteropPanic (Option Tag × ParserState)
  | .mk (.heading1 rt) _ => do
      Except.ok (next_tag state (Tag.heading .h1 (← parse_rich_text rt)))
  | .mk (.heading2 rt) _ => do
      Except.ok (next_tag state (Tag.heading .h2 (← parse_rich_text rt)))
  | .mk (.heading3 rt) _ => do
      Except.ok (next_tag state (Tag.heading .h3 (← parse_rich_text rt)))
  | .mk (.paragraph rt) _ => do
      Except.ok (next_tag state (Tag.paragraph ⟨← parse_rich_text rt⟩))
  | .mk (.numberedListItem rt) children => do
      let text ← parse_rich_text rt
      let (childTags, childState) ← process_blocks .idle children
      let nextListItem := OrderedListItem.mk text (childTags ++ (flush childState).toList)
      match state with
      | .idle => Except.ok (none, .processingList [nextListItem])
      | .processingList items =>
          Except.ok (none, .processingList (items ++ [nextListItem]))
      | .withBufferedTag bufferedTag =>
          Except.ok (some bufferedTag, .processingList [nextListItem])
  | .mk (.unsupported _) _ => Except.error (.panic "block not implemented")

/-- The block-consuming loop of `MarkdownTagIterator::next`, run to exhaustion:
returns the tags emitted while processing `blocks` from `state`, and the final
state (the flush has not yet run). -/
def process_blocks (state : ParserState) :
    List BlockWithChildren → Except InteropPanic (List Tag × ParserState)
  | [] => Except.ok ([], state)
  | b :: bs => do
      let (out, state2) ← parse_block state b
      let (outs, state3) ← process_blocks state2 bs
      Except.ok (out.toList ++ outs, state3)

end

/-- `NotionToMarkdownParser::default().feed(blocks).collect()`: all emitted tags,
including the final `flush` (in `parse_block` this composition — the children
conversion `children_parser.feed(value.children.iter()).collect()` — is written
out inline so that the mutual recursion stays structural). -/
def feed_tags (blocks : List BlockWithChildren) : Except InteropPanic (List Tag) := do
  let (tags, state2) ← process_blocks .idle blocks
  Except.ok (tags ++ (flush state2).toList)

/-- Is this block a `NumberedListItem`? -/
def is_numbered_list_item_block : NBlock → Bool
  | .numberedListItem _ => true
  | _ => false

/-- Is this block one of the supported non-list kinds (heading or paragraph)? -/
def is_simple_block : NBlock → Bool
  | .heading1 _ => true
  | .heading2 _ => true
  | .heading3 _ => true
  | .paragraph _ => true
  | _ => false

/-- The tag a supported non-list block converts to (the value `parse_block`
hands to `next_tag`). -/
def simple_block_tag : NBlock → Except InteropPanic Tag
  | .heading1 rt => do Except.ok (Tag.heading .h1 (← parse_rich_text rt))
  | .heading2 rt => do Except.ok (Tag.heading .h2 (← parse_rich_text rt))
  | .heading3 rt => do Except.ok (Tag.heading .h3 (← parse_rich_text rt))
  | .paragraph rt => do Except.ok (Tag.paragraph ⟨← parse_rich_text rt⟩)
  | _ => Except.error (.panic "not a supported non-list block")

/-- The `OrderedListItem` a numbered-list block converts to (the
`next_list_item` value of `parse_block`). -/
def list_item_of : BlockWithChildren → Except InteropPanic OrderedListItem
  | .mk (.numberedListItem rt) children => do
      Except.ok (OrderedListItem.mk (← parse_rich_text rt) (← feed_tags children))
  | _ => Except.error (.panic "not a numbered list item")

/-- The converted items of a run of numbered-list blocks, in order. -/
def map_items : List BlockWithChildren → Except InteropPanic (List OrderedListItem)
  | [] => Except.ok []
  | b :: bs => do Except.ok ((← list_item_of b) :: (← map_items bs))

/-- The converted tags of a run of supported non-list blocks, in order. -/
def map_simple_tags : List BlockWithChildren → Except InteropPanic (List Tag)
  | [] => Except.ok []
  | b :: bs => do Except.ok ((← simple_block_tag b.block) :: (← map_simple_tags bs))

/-- Is this tag an `OrderedList`? -/
def is_ordered_list_tag : Tag → Bool
  | .orderedList _ => true
  | _ => false

/-- `parse_block` on a supported non-list block is `next_tag` applied to the
block's converted tag. -/
theorem parse_block_simple (state : ParserState) (blk : NBlock)
    (ch : List BlockWithChildren) (hb : is_simple_block blk = true) :
    parse_block state (.mk blk ch) =
      (do Except.ok (next_tag state (← simple_block_tag blk))) := by
  cases blk with
  | heading1 rt =>
      cases hrt : parse_rich_text rt <;>
        simp [parse_block, simple_block_tag, hrt, bind, Except.bind]
  | heading2 rt =>
      cases hrt : parse_rich_text rt <;>
        simp [parse_block, simple_block_tag, hrt, bind, Except.bind]
  | heading3 rt =>
      cases hrt : parse_rich_text rt <;>
        simp [parse_block, simple_block_tag, hrt, bind, Except.bind]
  | paragraph rt =>
      cases hrt : parse_rich_text rt <;>
        simp [parse_block, simple_block_tag, hrt, bind, Except.bind]
  | numberedListItem rt => simp [is_simple_block] at hb
  | unsupported k => simp [is_simple_block] at hb

/-- `parse_block` on a numbered-list block appends the converted item to the
pending list (starting one if needed), emitting only a previously buffered tag. -/
theorem parse_block_numbered (state : ParserState) (rt : List NRichText)
    (ch : List BlockWithChildren) :
    parse_block state (.mk (.numberedListItem rt) ch) =
      (do
        let item ← list_item_of (.mk (.numberedListItem rt) ch)
        Except.ok
          (match state with
            | .idle => ((none : Option Tag), ParserState.processingList [item])
            | .processingList items => (none, ParserState.processingList (items ++ [item]))
            | .withBufferedTag bufferedTag =>
                (some bufferedTag, ParserState.processingList [item]))) := by
  cases hrt : parse_rich_text rt with
  | error e => simp [parse_block, list_item_of, hrt, bind, Except.bind]
  | ok text =>
      cases hpc : process_blocks .idle ch with
      | error e =>
          have hch : feed_tags ch = Except.error e := by
            simp [feed_tags, hpc, bind, Except.bind]
          simp [parse_block, list_item_of, hrt, hpc, hch, bind, Except.bind]
      | ok v =>
          have hch : feed_tags ch = Except.ok (v.1 ++ (flush v.2).toList) := by
            simp [feed_tags, hpc, bind, Except.bind]
          simp only [parse_block, list_item_of, hrt, hpc, hch, bind, Except.bind]
          cases state <;> rfl

/-- `next_tag` from `Idle` emits the tag immediately. -/
theorem next_tag_idle (t : Tag) : next_tag .idle t = (some t, .idle) := rfl

/-- `next_tag` while a list is pending emits the finalized list and buffers the
new tag. -/
theorem next_tag_processing (items : List OrderedListItem) (t : Tag) :
    next_tag (.processingList items) t =
      (some (Tag.orderedList items), .withBufferedTag t) := rfl

/-- `next_tag` with a buffered tag emits it and buffers the new one. -/
theorem next_tag_buffered (b t : Tag) :
    next_tag (.withBufferedTag b) t = (some b, .withBufferedTag t) := rfl

/-- Processing a run of supported non-list blocks from `Idle` emits their
converted tags immediately, in order, and stays `Idle`. -/
theorem process_blocks_simple_run (bs : List BlockWithChildren) :
    ∀ tags, (∀ x ∈ bs, is_simple_block x.block = true) →
      map_simple_tags bs = Except.ok tags →
      process_blocks .idle bs = Except.ok (tags, .idle) := by
  induction bs with
  | nil =>
      intro tags _ hmap
      simp only [map_simple_tags] at hmap
      injection hmap with h
      subst h
      rfl
  | cons b bs ih =>
      intro tags hsimple hmap
      have hb : is_simple_block b.block = true := hsimple b (by simp)
      cases hsbt : simple_block_tag b.block with
      | error e => simp [map_simple_tags, hsbt, bind, Except.bind] at hmap
      | ok t =>
          cases hrest : map_simple_tags bs with
          | error e => simp [map_simple_tags, hsbt, hrest, bind, Except.bind] at hmap
          | ok ts =>
              have htags : tags = t :: ts := by
                simp [map_simple_tags, hsbt, hrest, bind, Except.bind] at hmap
                exact hmap.symm
              subst htags
              cases b with
              | mk blk ch =>
                  simp only [BlockWithChildren.block] at hb hsbt
                  simp only [process_blocks, parse_block_simple .idle blk ch hb, hsbt,
                    bind, Except.bind, next_tag_idle]
                  rw [ih ts (fun x hx => hsimple x (by simp [hx])) hrest]
                  rfl

/-- The converted tags of supported non-list blocks are never ordered lists. -/
theorem map_simple_tags_no_list (bs : List BlockWithChildren) :
    ∀ tags, (∀ x ∈ bs, is_simple_block x.block = true) →
      map_simple_tags bs = Except.ok tags →
      ∀ u ∈ tags, is_ordered_list_tag u = false := by
  induction bs with
  | nil =>
      intro tags _ hmap
      simp only [map_simple_tags] at hmap
      injection hmap with h
      subst h
      intro u hu
      simp at hu
  | cons b bs ih =>
      intro tags hsimple hmap
      have hb : is_simple_block b.block = true := hsimple b (by simp)
      cases hsbt : simple_block_tag b.block with
      | error e => simp [map_simple_tags, hsbt, bind, Except.bind] at hmap
      | ok t =>
          cases hrest : map_simple_tags bs with
          | error e => simp [map_simple_tags, hsbt, hrest, bind, Except.bind] at hmap
          | ok ts =>
              have htags : tags = t :: ts := by
                simp [map_simple_tags, hsbt, hrest, bind, Except.bind] at hmap
                exact hmap.symm
              subst htags
              intro u hu
              rcases List.mem_cons.mp hu with hu | hu
              · subst hu
                cases hblk : b.block with
                | heading1 rt =>
                    rw [hblk] at hsbt
                    cases hrt : parse_rich_text rt <;> simp [simple_block_tag, hrt,
                      bind, Except.bind] at hsbt
                    subst hsbt
                    rfl
                | heading2 rt =>
                    rw [hblk] at hsbt
                    cases hrt : parse_rich_text rt <;> simp [simple_block_tag, hrt,
                      bind, Except.bind] at hsbt
                    subst hsbt
                    rfl
                | heading3 rt =>
                    rw [hblk] at hsbt
                    cases hrt : parse_rich_text rt <;> simp [simple_block_tag, hrt,
                      bind, Except.bind] at hsbt
                    subst hsbt
                    rfl
                | paragraph rt =>
                    rw [hblk] at hsbt
                    cases hrt : parse_rich_text rt <;> simp [simple_block_tag, hrt,
                      bind, Except.bind] at hsbt
                    subst hsbt
                    rfl
                | numberedListItem rt => rw [hblk] at hb; simp [is_simple_block] at hb
                | unsupported k => rw [hblk] at hb; simp [is_simple_block] at hb
              · exact ih ts (fun x hx => hsimple x (by simp [hx])) hrest u hu

/-- Processing a run of numbered-list blocks followed by one supported non-list
block, starting in `ProcessingList acc`: nothing is emitted while the run lasts,
then the finalized `OrderedList` is emitted and the non-list tag is buffered. -/
theorem process_blocks_list_append (bs : List BlockWithChildren) :
    ∀ acc items (b : BlockWithChildren) (t : Tag),
      (∀ x ∈ bs, is_numbered_list_item_block x.block = true) →
      map_items bs = Except.ok items →
      is_simple_block b.block = true →
      simple_block_tag b.block = Except.ok t →
      process_blocks (.processingList acc) (bs ++ [b]) =
        Except.ok ([Tag.orderedList (acc ++ items)], .withBufferedTag t) := by
  induction bs with
  | nil =>
      intro acc items b t _ hmap hbs hsbt
      have hitems : items = [] := by
        simp only [map_items] at hmap
        injection hmap with h
        exact h.symm
      subst hitems
      cases b with
      | mk blk ch =>
          simp only [BlockWithChildren.block] at hbs hsbt
          simp only [List.nil_append, process_blocks,
            parse_block_simple (.processingList acc) blk ch hbs, hsbt, bind, Except.bind]
          simp [next_tag, maybe_flush_processed_tag]
  | cons b0 bs ih =>
      intro acc items b t hnum hmap hbs hsbt
      have hb0 : is_numbered_list_item_block b0.block = true := hnum b0 (by simp)
      cases hitem : list_item_of b0 with
      | error e => simp [map_items, hitem, bind, Except.bind] at hmap
      | ok item0 =>
          cases hrest : map_items bs with
          | error e => simp [map_items, hitem, hrest, bind, Except.bind] at hmap
          | ok items0 =>
              have hitems : items = item0 :: items0 := by
                simp [map_items, hitem, hrest, bind, Except.bind] at hmap
                exact hmap.symm
              subst hitems
              cases b0 with
              | mk blk0 ch0 =>
                  cases blk0 with
                  | numberedListItem rt =>
                      simp only [List.cons_append, process_blocks,
                        parse_block_numbered (.processingList acc) rt ch0, hitem,
                        bind, Except.bind]
                      simp only [List.append_eq]
                      rw [ih (acc ++ [item0]) items0 b t
                        (fun x hx => hnum x (by simp [hx])) hrest hbs hsbt]
                      simp
                  | heading1 rt => simp [BlockWithChildren.block,
                      is_numbered_list_item_block] at hb0
                  | heading2 rt => simp [BlockWithChildren.block,
                      is_numbered_list_item_block] at hb0
                  | heading3 rt => simp [BlockWithChildren.block,
                      is_numbered_list_item_block] at hb0
                  | paragraph rt => simp [BlockWithChildren.block,
                      is_numbered_list_item_block] at hb0
                  | unsupported k => simp [BlockWithChildren.block,
                      is_numbered_list_item_block] at hb0

/-- C5: list-collapsing.  (1) Feeding N ≥ 1 consecutive numbered-list-item
blocks followed by one supported non-list block yields exactly one `OrderedList`
tag holding the N converted items in input order, emitted before the non-list
block's tag.  (2) Feeding only supported non-list blocks yields exactly their
converted tags in input order, with no `OrderedList` among them. -/
theorem c5_list_collapsing :
    (∀ (bs : List BlockWithChildren) (b : BlockWithChildren) (items : List OrderedListItem)
        (t : Tag),
        bs ≠ [] →
        (∀ x ∈ bs, is_numbered_list_item_block x.block = true) →
        map_items bs = Except.ok items →
        is_simple_block b.block = true →
        simple_block_tag b.block = Except.ok t →
        feed_tags (bs ++ [b]) = Except.ok [Tag.orderedList items, t]) ∧
    (∀ (bs : List BlockWithChildren) (tags : List Tag),
        (∀ x ∈ bs, is_simple_block x.block = true) →
        map_simple_tags bs = Except.ok tags →
        feed_tags bs = Except.ok tags ∧ ∀ u ∈ tags, is_ordered_list_tag u = false) := by
  constructor
  · intro bs b items t hne hnum hmap hbs hsbt
    cases bs with
    | nil => exact absurd rfl hne
    | cons b0 bs0 =>
        have hb0 : is_numbered_list_item_block b0.block = true := hnum b0 (by simp)
        cases hitem : list_item_of b0 with
        | error e => simp [map_items, hitem, bind, Except.bind] at hmap
        | ok item0 =>
            cases hrest : map_items bs0 with
            | error e => simp [map_items, hitem, hrest, bind, Except.bind] at hmap
            | ok items0 =>
                have hitems : items = item0 :: items0 := by
                  simp [map_items, hitem, hrest, bind, Except.bind] at hmap
                  exact hmap.symm
                subst hitems
                cases b0 with
                | mk blk0 ch0 =>
                    cases blk0 with
                    | numberedListItem rt =>
                        simp only [List.cons_append, feed_tags, process_blocks,
                          parse_block_numbered .idle rt ch0, hitem, bind, Except.bind]
                        simp only [List.append_eq]
                        rw [process_blocks_list_append bs0 [item0] items0 b t
                          (fun x hx => hnum x (by simp [hx])) hrest hbs hsbt]
                        simp [flush, maybe_flush_processed_tag]
                    | heading1 rt => simp [BlockWithChildren.block,
                        is_numbered_list_item_block] at hb0
                    | heading2 rt => simp [BlockWithChildren.block,
                        is_numbered_list_item_block] at hb0
                    | heading3 rt => simp [BlockWithChildren.block,
                        is_numbered_list_item_block] at hb0
                    | paragraph rt => simp [BlockWithChildren.block,
                        is_numbered_list_item_block] at hb0
                    | unsupported k => simp [BlockWithChildren.block,
                        is_numbered_list_item_block] at hb0
  · intro bs tags hsimple hmap
    refine ⟨?_, map_simple_tags_no_list bs tags hsimple hmap⟩
    rw [show feed_tags bs = (do
        let (ts, state2) ← process_blocks .idle bs
        Except.ok (ts ++ (flush state2).toList)) from rfl]
    rw [process_blocks_simple_run bs tags hsimple hmap]
    simp [flush, maybe_flush_processed_tag, bind, Except.bind]

/-- Witness for `c5_list_collapsing`: two numbered items followed by a heading
collapse to one `OrderedList` then the heading; two paragraphs stay two tags. -/
theorem c5_list_collapsing_witness :
    feed_tags
        [BlockWithChildren.mk (.numberedListItem [.plainText "a"]) [],
         BlockWithChildren.mk (.numberedListItem [.plainText "b"]) [],
         BlockWithChildren.mk (.heading1 [.plainText "h"]) []] =
      Except.ok
        [Tag.orderedList [OrderedListItem.mk [⟨"a"⟩] [], OrderedListItem.mk [⟨"b"⟩] []],
         Tag.heading .h1 [⟨"h"⟩]] ∧
    feed_tags
        [BlockWithChildren.mk (.paragraph [.plainText "p"]) [],
         BlockWithChildren.mk (.paragraph [.plainText "q"]) []] =
      Except.ok [Tag.paragraph ⟨[⟨"p"⟩]⟩, Tag.paragraph ⟨[⟨"q"⟩]⟩] := by
  constructor
  · exact c5_list_collapsing.1
      [BlockWithChildren.mk (.numberedListItem [.plainText "a"]) [],
       BlockWithChildren.mk (.numberedListItem [.plainText "b"]) []]
      (BlockWithChildren.mk (.heading1 [.plainText "h"]) [])
      [OrderedListItem.mk [⟨"a"⟩] [], OrderedListItem.mk [⟨"b"⟩] []]
      (Tag.heading .h1 [⟨"h"⟩])
      (by simp)
      (by intro x hx; simp at hx; rcases hx with rfl | rfl <;> rfl)
      rfl rfl rfl
  · exact (c5_list_collapsing.2
      [BlockWithChildren.mk (.paragraph [.plainText "p"]) [],
       BlockWithChildren.mk (.paragraph [.plainText "q"]) []]
      [Tag.paragraph ⟨[⟨"p"⟩]⟩, Tag.paragraph ⟨[⟨"q"⟩]⟩]
      (by intro x hx; simp at hx; rcases hx with rfl | rfl <;> rfl)
      rfl).1

/-- C6: flush behavior at end of input.  `Idle` emits nothing, `ProcessingList`
emits exactly the finalized `OrderedList`, `WithBufferedTag` emits exactly the
buffered tag; in every state at most one tag; and for every successfully
processed input stream the collected output is exactly the tags emitted during
processing followed by the flush tags of the final state. -/
theorem c6_flush_behavior :
    flush ParserState.idle = none ∧
    (∀ items, flush (ParserState.processingList items) = some (Tag.orderedList items)) ∧
    (∀ t, flush (ParserState.withBufferedTag t) = some t) ∧
    (∀ s : ParserState, (flush s).toList.length ≤ 1) ∧
    (∀ (blocks : List BlockWithChildren) (tags : List Tag) (s : ParserState),
        process_blocks .idle blocks = Except.ok (tags, s) →
        feed_tags blocks = Except.ok (tags ++ (flush s).toList)) := by
  refine ⟨rfl, fun _ => rfl, fun _ => rfl, ?_, ?_⟩
  · intro s
    cases s <;> simp [flush, maybe_flush_processed_tag]
  · intro blocks tags s h
    rw [show feed_tags blocks = (do
        let (ts, state2) ← process_blocks .idle blocks
        Except.ok (ts ++ (flush state2).toList)) from rfl]
    rw [h]
    rfl

/-- Witness for `c6_flush_behavior`: a stream ending in `ProcessingList` emits
exactly the one final `OrderedList`. -/
theorem c6_flush_behavior_witness :
    feed_tags [BlockWithChildren.mk (.numberedListItem [.plainText "a"]) []] =
      Except.ok
        ([] ++ (flush (ParserState.processingList [OrderedListItem.mk [⟨"a"⟩] []])).toList) :=
  c6_flush_behavior.2.2.2.2 [BlockWithChildren.mk (.numberedListItem [.plainText "a"]) []]
    [] (ParserState.processingList [OrderedListItem.mk [⟨"a"⟩] []]) rfl

/-! ## C9: malformed event streams -/

/-- Does this parse result return one of the `ParseError` enum values (as opposed
to succeeding, or dying with a panic)? -/
def is_returned_parse_error (r : Except ParseFailure (List Tag)) : Bool :=
  match r with
  | .error (.parseError _) => true
  | _ => false

/-- C9 (counterexample): the malformed stream `[Start(Paragraph)]` (end of
stream inside an unfinished paragraph with empty text) makes the parser panic
(`assert!(!text.is_empty(), "empty paragraph")`) rather than return a
`ParseError` result: the claim that every violating stream yields a
`ParseError` result is false. -/
theorem c9_counterexample :
    parse [Event.start .paragraph] = Except.error (ParseFailure.panic "empty paragraph") ∧
    is_returned_parse_error (parse [Event.start .paragraph]) = false :=
  ⟨rfl, rfl⟩

/-- C9 (amended): each violation class the claim enumerates makes the parser
fail — with a panic for the structural violations, and with a returned
`ParseError` only for unsupported heading levels and unimplemented tags — and
never produces a partial tree or an empty success:
(a) a heading whose end event is missing (another start event follows its text);
(b) empty heading or paragraph text;
(c) structurally impossible nesting (a top-level end event or bare text run);
(d) end of stream inside an unfinished construct (paragraph, list, list item);
(e) heading levels above H3 and unimplemented tags yield `ParseError` results. -/
theorem c9_malformed_streams_fail :
    (∀ s : String,
        parse [Event.start (.heading .h1 none []), Event.text s, Event.start .paragraph] =
          Except.error
            (ParseFailure.panic "start heading should have a matching end heading event")) ∧
    (parse [Event.start (.heading .h1 none []), Event.stop (.heading .h1 none [])] =
        Except.error (ParseFailure.panic "empty heading") ∧
      parse [Event.start .paragraph, Event.stop .paragraph] =
        Except.error (ParseFailure.panic "empty paragraph")) ∧
    ((∀ t : CTag,
        parse [Event.stop t] =
          Except.error
            (ParseFailure.panic "end events should be handled in start event handlers")) ∧
      (∀ s : String,
        parse [Event.text s] =
          Except.error
            (ParseFailure.panic "text should be handled in start event handlers"))) ∧
    ((∀ s : String,
        parse [Event.start .paragraph, Event.text s] =
          Except.error (ParseFailure.panic "end of paragraph")) ∧
      parse [Event.start (.list (some 1)), Event.start .item] =
        Except.error
          (ParseFailure.panic
            "unexpected end of events, expected list item to have some content") ∧
      parse [Event.start (.list (some 1))] =
        Except.error (ParseFailure.panic "end of list")) ∧
    (parse [Event.start (.heading .h4 none [])] =
        Except.error (ParseFailure.parseError (.unexpectedHeadingLevel .h4)) ∧
      ∀ s : String,
        parse [Event.start (.other s)] =
          Except.error (ParseFailure.parseError (.unimplementedTag (.other s)))) := by
  refine ⟨fun s => rfl, ⟨rfl, rfl⟩, ⟨fun t => ?_, fun s => rfl⟩,
    ⟨fun s => rfl, rfl, rfl⟩, rfl, fun s => rfl⟩
  cases t <;> rfl

/-! ## Recursive fetch (src/notion.rs, duplicated in src/notion_api/client.rs)

`get_all_block_children` is parameterized by the listing capability
`notion_api.get_block_children` (modelled as a function from a block id to a
`ListResponse` or a returned `notion::Error`).  The concurrent `join_all`
followed by `into_iter().collect()` is modelled by producing the per-child
results in sibling order and collecting them with the short-circuiting
`Result` collector. -/

/-- The block kinds distinguished by `GetCommon for Block` (src/notion.rs). -/
inductive FBlockKind where
  | heading1
  | heading2
  | heading3
  | paragraph
  | numberedListItem
  | other (name : String)
deriving DecidableEq, Repr

/-- A fetched `notion::models::Block`: its id (`as_id`), the `has_children` flag
of its `BlockCommon`, and its kind. -/
structure FBlock where
  id : String
  hasChildren : Bool
  kind : FBlockKind
deriving DecidableEq, Repr

/-- `GetCommon::common` (src/notion.rs): only the `NumberedListItem` arm exposes
its `BlockCommon` (the source carries a `TODO: add more block patterns`); every
other kind returns `None`.  Only the `has_children` field is read downstream,
so the returned `BlockCommon` is modelled by that field. -/
def FBlock.common (b : FBlock) : Option Bool :=
  match b.kind with
  | .numberedListItem => some b.hasChildren
  | _ => none

/-- `notion::models::ListResponse`: one page of children plus the has-more flag. -/
structure FListResponse where
  results : List FBlock
  has_more : Bool
deriving DecidableEq, Repr

/-- `notion::Error` (transport/deserialization), opaque. -/
structure NotionError where
  message : String
deriving DecidableEq, Repr

/-- Failure modes of the embedded fetch: a returned `notion::Error`, a panic
(the pagination `todo!`), or fuel exhaustion (embedding artifact). -/
inductive FetchFailure where
  | notion (e : NotionError)
  | panic (message : String)
  | outOfFuel
deriving DecidableEq, Repr

/-- `BlockWithChildren` as built by the fetcher. -/
inductive FBlockWithChildren where
  | mk (block : FBlock) (children : List FBlockWithChildren)

/-- Field accessor for `FBlockWithChildren.block`. -/
def FBlockWithChildren.block : FBlockWithChildren → FBlock
  | .mk b _ => b

/-- Field accessor for `FBlockWithChildren.children`. -/
def FBlockWithChildren.children : FBlockWithChildren → List FBlockWithChildren
  | .mk _ c => c

/-- `Vec<Result<A, E>>::into_iter().collect::<Result<Vec<A>, E>>()`: succeeds
with all values, or short-circuits at the first error. -/
def collect_results {ε α : Type} : List (Except ε α) → Except ε (List α)
  | [] => Except.ok []
  | .error e :: _ => Except.error e
  | .ok a :: rest =>
      match collect_results rest with
      | .error e => Except.error e
      | .ok xs => Except.ok (a :: xs)

/-- `get_all_block_children` (src/notion.rs; the copy in
src/notion_api/client.rs lines 222-256 is identical): one listing call, a
`todo!` panic when `has_more` is set, then one recursive fetch per child whose
`common()` reports `has_children` (only numbered-list items do), reassembled in
sibling order. -/
def get_all_block_children (api : String → Except NotionError FListResponse) :
    Nat → String → Except FetchFailure (List FBlockWithChildren)
  | 0, _ => Except.error .outOfFuel
  | fuel + 1, blockId =>
    match api blockId with
    | .error e => Except.error (.notion e)
    | .ok children =>
        if children.has_more then
          Except.error (.panic "pagination when retrieving blocks")
        else
          collect_results
            (children.results.map (fun childBlock =>
              let hasChildren := childBlock.common.getD false
              if hasChildren then
                match get_all_block_children api fuel childBlock.id with
                | .ok cs => Except.ok (FBlockWithChildren.mk childBlock cs)
                | .error e => Except.error e
              else Except.ok (FBlockWithChildren.mk childBlock [])))

/-- A successful `collect_results` over a mapped list relates inputs to outputs
pointwise, in order. -/
theorem collect_results_ok {ε α β : Type} (f : β → Except ε α) (l : List β) :
    ∀ out, collect_results (l.map f) = Except.ok out →
      List.Forall₂ (fun b a => f b = Except.ok a) l out := by
  induction l with
  | nil =>
      intro out h
      simp only [List.map_nil, collect_results] at h
      injection h with h
      subst h
      exact List.Forall₂.nil
  | cons b bs ih =>
      intro out h
      simp only [List.map_cons] at h
      cases hfb : f b with
      | error e => rw [hfb] at h; simp [collect_results] at h
      | ok a =>
          rw [hfb] at h
          cases hrest : collect_results (bs.map f) with
          | error e => simp [collect_results, hrest] at h
          | ok xs =>
              simp only [collect_results, hrest] at h
              injection h with h
              subst h
              exact List.Forall₂.cons hfb (ih xs hrest)

/-- C7 (amended): in a successful recursive fetch, the result nodes mirror the
listed children in sibling order, and a child's own children are recursively
fetched and attached exactly when the child is a numbered-list item whose
`has_children` flag is set — children of any other kind (heading, paragraph,
…), and children without the flag, become leaves with no children attached. -/
theorem c7_recursion_only_for_numbered
    (api : String → Except NotionError FListResponse) (fuel : Nat) (root : String)
    (resp : FListResponse) (nodes : List FBlockWithChildren)
    (hapi : api root = Except.ok resp)
    (hok : get_all_block_children api (fuel + 1) root = Except.ok nodes) :
    List.Forall₂
      (fun (b : FBlock) (n : FBlockWithChildren) =>
        n.block = b ∧
        ((b.kind = .numberedListItem ∧ b.hasChildren = true) →
          get_all_block_children api fuel b.id = Except.ok n.children) ∧
        ((b.kind ≠ .numberedListItem ∨ b.hasChildren = false) → n.children = []))
      resp.results nodes := by
  simp only [get_all_block_children, hapi] at hok
  cases hhm : resp.has_more with
  | true => rw [hhm] at hok; simp at hok
  | false =>
      rw [hhm] at hok
      simp only [Bool.false_eq_true, if_false] at hok
      have hforall := collect_results_ok _ resp.results nodes hok
      refine List.Forall₂.imp ?_ hforall
      intro b n hbn
      cases hk : b.kind with
      | numberedListItem =>
          simp only [FBlock.common, hk, Option.getD_some] at hbn
          cases hhc : b.hasChildren with
          | true =>
              rw [hhc, if_pos rfl] at hbn
              cases hrec : get_all_block_children api fuel b.id with
              | error e => rw [hrec] at hbn; simp at hbn
              | ok cs =>
                  rw [hrec] at hbn
                  simp only [] at hbn
                  injection hbn with hbn
                  subst hbn
                  refine ⟨rfl, fun _ => rfl, fun hcontra => ?_⟩
                  rcases hcontra with hcontra | hcontra
                  · exact absurd rfl hcontra
                  · exact absurd hcontra (by simp)
          | false =>
              rw [hhc, if_neg (by simp)] at hbn
              injection hbn with hbn
              subst hbn
              exact ⟨rfl, fun hcon => absurd hcon.2 (by simp), fun _ => rfl⟩
      | heading1 =>
          simp only [FBlock.common, hk, Option.getD_none, Bool.false_eq_true, if_false] at hbn
          injection hbn with hbn
          subst hbn
          exact ⟨rfl, fun hcon => absurd hcon.1 (by simp), fun _ => rfl⟩
      | heading2 =>
          simp only [FBlock.common, hk, Option.getD_none, Bool.false_eq_true, if_false] at hbn
          injection hbn with hbn
          subst hbn
          exact ⟨rfl, fun hcon => absurd hcon.1 (by simp), fun _ => rfl⟩
      | heading3 =>
          simp only [FBlock.common, hk, Option.getD_none, Bool.false_eq_true, if_false] at hbn
          injection hbn with hbn
          subst hbn
          exact ⟨rfl, fun hcon => absurd hcon.1 (by simp), fun _ => rfl⟩
      | paragraph =>
          simp only [FBlock.common, hk, Option.getD_none, Bool.false_eq_true, if_false] at hbn
          injection hbn with hbn
          subst hbn
          exact ⟨rfl, fun hcon => absurd hcon.1 (by simp), fun _ => rfl⟩
      | other name =>
          simp only [FBlock.common, hk, Option.getD_none, Bool.false_eq_true, if_false] at hbn
          injection hbn with hbn
          subst hbn
          exact ⟨rfl, fun hcon => absurd hcon.1 (by simp), fun _ => rfl⟩

/-- A listing capability for the `c7_recursion_only_for_numbered` witness: the
root has a flagged numbered-list child and a paragraph child. -/
def api_c7w : String → Except NotionError FListResponse := fun blockId =>
  if blockId = "root" then
    Except.ok ⟨[FBlock.mk "n1" true .numberedListItem, FBlock.mk "p1" false .paragraph], false⟩
  else if blockId = "n1" then
    Except.ok ⟨[FBlock.mk "q1" false .paragraph], false⟩
  else Except.ok ⟨[], false⟩

/-- Witness for `c7_recursion_only_for_numbered`: the flagged numbered-list
child gets its recursively fetched children attached; the paragraph child is a
leaf. -/
theorem c7_recursion_only_for_numbered_witness :
    List.Forall₂
      (fun (b : FBlock) (n : FBlockWithChildren) =>
        n.block = b ∧
        ((b.kind = .numberedListItem ∧ b.hasChildren = true) →
          get_all_block_children api_c7w 1 b.id = Except.ok n.children) ∧
        ((b.kind ≠ .numberedListItem ∨ b.hasChildren = false) → n.children = []))
      [FBlock.mk "n1" true .numberedListItem, FBlock.mk "p1" false .paragraph]
      [FBlockWithChildren.mk (FBlock.mk "n1" true .numberedListItem)
        [FBlockWithChildren.mk (FBlock.mk "q1" false .paragraph) []],
       FBlockWithChildren.mk (FBlock.mk "p1" false .paragraph) []] :=
  c7_recursion_only_for_numbered api_c7w 1 "root"
    ⟨[FBlock.mk "n1" true .numberedListItem, FBlock.mk "p1" false .paragraph], false⟩
    _ rfl rfl

/-- A listing capability under which the root's only child is a heading with
`has_children = true`, which itself has a child. -/
def api_c7x : String → Except NotionError FListResponse := fun blockId =>
  if blockId = "root" then Except.ok ⟨[FBlock.mk "h1" true .heading1], false⟩
  else if blockId = "h1" then Except.ok ⟨[FBlock.mk "c2" false .paragraph], false⟩
  else Except.ok ⟨[], false⟩

/-- C7 (counterexample): a heading child whose `has_children` flag is true is
returned as a leaf with no children and its children are never fetched — even
though recursively fetching them would succeed and return a non-empty list —
because `GetCommon::common` returns `None` for every kind except
`NumberedListItem`.  This falsifies the claim's "regardless of the child's
block kind". -/
theorem c7_counterexample :
    get_all_block_children api_c7x 2 "root" =
      Except.ok [FBlockWithChildren.mk (FBlock.mk "h1" true .heading1) []] ∧
    (FBlock.mk "h1" true .heading1).hasChildren = true ∧
    get_all_block_children api_c7x 1 "h1" =
      Except.ok [FBlockWithChildren.mk (FBlock.mk "c2" false .paragraph) []] ∧
    (FBlockWithChildren.mk (FBlock.mk "h1" true .heading1) []).children ≠
      [FBlockWithChildren.mk (FBlock.mk "c2" false .paragraph) []] :=
  ⟨rfl, rfl, rfl, by simp [FBlockWithChildren.children]⟩

/-- C8 (amended): whenever the listing call reports `has_more`, the recursive
fetch fails — with the `todo!` panic "pagination when retrieving blocks", not a
returned error value — and in particular never returns a silently truncated
first page. -/
theorem c8_pagination_fails
    (api : String → Except NotionError FListResponse) (fuel : Nat) (root : String)
    (resp : FListResponse) (h1 : api root = Except.ok resp)
    (h2 : resp.has_more = true) :
    get_all_block_children api (fuel + 1) root =
      Except.error (.panic "pagination when retrieving blocks") ∧
    ∀ nodes, get_all_block_children api (fuel + 1) root ≠ Except.ok nodes := by
  have hmain : get_all_block_children api (fuel + 1) root =
      Except.error (.panic "pagination when retrieving blocks") := by
    simp only [get_all_block_children, h1]
    rw [h2, if_pos rfl]
  refine ⟨hmain, fun nodes hcontra => ?_⟩
  rw [hmain] at hcontra
  exact Except.noConfusion hcontra

/-- A listing capability that always reports `has_more`. -/
def api_c8 : String → Except NotionError FListResponse := fun _ =>
  Except.ok ⟨[], true⟩

/-- Witness for `c8_pagination_fails`. -/
theorem c8_pagination_fails_witness :
    get_all_block_children api_c8 1 "root" =
      Except.error (.panic "pagination when retrieving blocks") :=
  (c8_pagination_fails api_c8 0 "root" ⟨[], true⟩ rfl rfl).1

/-- Does this fetch result carry a returned `notion::Error` (a `Result::Err`
value handed to the caller, as opposed to a panic)? -/
def is_returned_api_error (r : Except FetchFailure (List FBlockWithChildren)) : Bool :=
  match r with
  | .error (.notion _) => true
  | _ => false

/-- C8 (counterexample): on a has-more response the fetch dies with the `todo!`
panic; it does not return an error value (there is no `PaginationRequired`
error anywhere in the code — the claim's error type does not exist). -/
theorem c8_counterexample :
    get_all_block_children api_c8 1 "root" =
      Except.error (.panic "pagination when retrieving blocks") ∧
    is_returned_api_error (get_all_block_children api_c8 1 "root") = false :=
  ⟨rfl, rfl⟩

/-! ## Synchronization: delete, erase, create
(src/notion_api/client.rs and src/main.rs) -/

/-- An HTTP response; `delete_block` never inspects it (in particular not its
status code). -/
structure HttpResponse where
  status : Nat
deriving DecidableEq, Repr

/-- A `reqwest::Error` from `send()`: a transport-level failure, carrying the
URL of the request it belongs to (reqwest attaches the request URL to errors). -/
structure ReqwestError where
  url : String
deriving DecidableEq, Repr

/-- `NotionClient::delete_block` (src/notion_api/client.rs): issues the DELETE
and maps any received response to `Ok(())` — `send()` errors only on transport
failure, and the response status is never checked (`.map(|_| ())`, no
`error_for_status`). -/
def delete_block (sendResult : Except ReqwestError HttpResponse) :
    Except ReqwestError Unit :=
  sendResult.map (fun _ => ())

/-- C10: `delete_block` reports success for every received response, whatever
its status code (404 and 403 included), and reports an error exactly for
transport-level failures. -/
theorem c10_delete_block_ignores_status :
    (∀ r : HttpResponse, delete_block (Except.ok r) = Except.ok ()) ∧
    delete_block (Except.ok ⟨404⟩) = Except.ok () ∧
    delete_block (Except.ok ⟨403⟩) = Except.ok () ∧
    (∀ e : ReqwestError, delete_block (Except.error e) = Except.error e) :=
  ⟨fun _ => rfl, rfl, rfl, fun _ => rfl⟩

/-- The DELETE endpoint URL built by `erase_page` (src/main.rs) and
`delete_block` (src/notion_api/client.rs). -/
def delete_url (blockId : String) : String :=
  "https://api.notion.com/v1/blocks/" ++ blockId

/-- The panic raised by `.expect("block to be correctly deleted")` in
`erase_page` (src/main.rs), carrying the reqwest error (whose rendering names
the request URL). -/
inductive ErasePanic where
  | expectFailed (message : String) (error : ReqwestError)
deriving DecidableEq, Repr

/-- `erase_page` (src/main.rs): the delete futures are built lazily and awaited
one at a time in listing order (`for future in futures { future.await; }` — the
source notes that parallel deletion skipped blocks, so deletion is sequential
as a workaround).  `send` models the transport: `some response` or `none` for a
transport failure, in which case the `.expect` panics with the reqwest error
for that URL.  Returns the delete-request URLs actually issued, in order, and
the outcome. -/
def erase_page_run (send : String → Option HttpResponse) :
    List String → List String × Except ErasePanic Unit
  | [] => ([], Except.ok ())
  | blockId :: rest =>
      match send (delete_url blockId) with
      | some _ =>
          let (calls, outcome) := erase_page_run send rest
          (delete_url blockId :: calls, outcome)
      | none =>
          ([delete_url blockId],
           Except.error (.expectFailed "block to be correctly deleted"
             ⟨delete_url blockId⟩))

/-- C3: erase issues its delete calls strictly in listing order; when every
delete succeeds each child is deleted exactly once, and when a delete fails the
erase stops there — the blocks after the failing one are never attempted — and
the surfaced panic carries the reqwest error whose URL names the failing
block's identifier. -/
theorem c3_erase_sequential_first_failure
    (send : String → Option HttpResponse) :
    (∀ blocks : List String,
        (∀ x ∈ blocks, (send (delete_url x)).isSome = true) →
        erase_page_run send blocks = (blocks.map delete_url, Except.ok ())) ∧
    (∀ (pre : List String) (b : String) (post : List String),
        (∀ x ∈ pre, (send (delete_url x)).isSome = true) →
        send (delete_url b) = none →
        erase_page_run send (pre ++ b :: post) =
          (pre.map delete_url ++ [delete_url b],
           Except.error (.expectFailed "block to be correctly deleted"
             ⟨"https://api.notion.com/v1/blocks/" ++ b⟩))) := by
  constructor
  · intro blocks hall
    induction blocks with
    | nil => rfl
    | cons x xs ih =>
        have hx : (send (delete_url x)).isSome = true := hall x (by simp)
        cases hs : send (delete_url x) with
        | none => rw [hs] at hx; simp at hx
        | some r =>
            simp only [erase_page_run, hs]
            rw [ih (fun y hy => hall y (by simp [hy]))]
            rfl
  · intro pre b post hpre hfail
    induction pre with
    | nil => simp only [List.nil_append, erase_page_run, hfail]; rfl
    | cons x xs ih =>
        have hx : (send (delete_url x)).isSome = true := hpre x (by simp)
        cases hs : send (delete_url x) with
        | none => rw [hs] at hx; simp at hx
        | some r =>
            simp only [List.cons_append, erase_page_run, hs, List.append_eq]
            rw [ih (fun y hy => hpre y (by simp [hy]))]
            rfl

/-- Witness for `c3_erase_sequential_first_failure` at the spec's concrete
scenario: three children, the second delete fails, so exactly two delete calls
are issued (the third is never attempted) and the surfaced error names the
second block's identifier. -/
theorem c3_erase_sequential_first_failure_witness :
    erase_page_run
        (fun url => if url = delete_url "b2" then none else some ⟨200⟩)
        ["b1", "b2", "b3"] =
      ([delete_url "b1", delete_url "b2"],
       Except.error (.expectFailed "block to be correctly deleted"
         ⟨"https://api.notion.com/v1/blocks/" ++ "b2"⟩)) :=
  (c3_erase_sequential_first_failure
      (fun url => if url = delete_url "b2" then none else some ⟨200⟩)).2
    ["b1"] "b2" ["b3"]
    (by intro x hx; simp at hx; subst hx; rfl)
    rfl

/-- `AppendBlockChildrenError` (src/notion_api/client.rs).  The `children`
payload carried by `AppendFailed` is omitted from the model (it is never read
by `create_blocks`). -/
inductive AppendBlockChildrenError where
  | appendFailed (error : ReqwestError) (parentBlockId : String)
  | unexpectedResponse (error : ReqwestError)
deriving DecidableEq, Repr

/-- `BlockToCreate` (src/notion_api/client.rs): the block payload sent in a
batch create request (each variant carries its rich-text payload). -/
inductive BlockToCreate where
  | heading1 (text : List NRichText)
  | heading2 (text : List NRichText)
  | heading3 (text : List NRichText)
  | paragraph (text : List NRichText)
  | numberedListItem (text : List NRichText)
deriving DecidableEq, Repr

/-- `BlockWithChildrenToCreate` (src/notion_api/client.rs). -/
inductive BlockWithChildrenToCreate where
  | mk (block : BlockToCreate) (children : List BlockWithChildrenToCreate)

/-- Field accessor for `BlockWithChildrenToCreate.block`. -/
def BlockWithChildrenToCreate.block : BlockWithChildrenToCreate → BlockToCreate
  | .mk b _ => b

/-- Field accessor for `BlockWithChildrenToCreate.children`. -/
def BlockWithChildrenToCreate.children :
    BlockWithChildrenToCreate → List BlockWithChildrenToCreate
  | .mk _ c => c

/-- A created block, as returned in the batch create response; `create_blocks`
only reads its server-assigned id (`as_id`). -/
structure CreatedBlock where
  id : String
deriving DecidableEq, Repr

/-- `NotionClient::create_blocks` (src/notion_api/client.rs), instrumented with
the list of batch create calls it issues (parent id and payload, in issue
order).  `server` models `append_block_children_shallow`.

The source drains its iterator before pairing:

* `let mut blocks_to_create_iter = blocks_to_create.into_iter();`
* `let top_level_blocks_to_create: Vec<_> = blocks_to_create_iter.by_ref().map(|b| b.block).collect();`

`by_ref().map(..).collect()` consumes the whole iterator, so by the time
`std::iter::zip(blocks_to_create_iter, created_blocks)` runs, the left side is
empty — modelled by `blocks_to_create_iter := []` below.  The recursive branch
is therefore dead code; the fuel-0 arm is unreachable because the recursion is
never entered (see `create_blocks_drained`). -/
def create_blocks
    (server : String → List BlockToCreate →
      Except AppendBlockChildrenError (List CreatedBlock)) :
    Nat → String → List BlockWithChildrenToCreate →
      List (String × List BlockToCreate) × Except (List AppendBlockChildrenError) Unit
  | 0, _, _ => ([], Except.error [])
  | fuel + 1, parentBlockId, blocksToCreate =>
      let topLevelBlocksToCreate := blocksToCreate.map (fun b => b.block)
      let blocksToCreateIter : List BlockWithChildrenToCreate := []
      match server parentBlockId topLevelBlocksToCreate with
      | .error e => ([(parentBlockId, topLevelBlocksToCreate)], Except.error [e])
      | .ok createdBlocks =>
          let branches :=
            (List.zip blocksToCreateIter createdBlocks).map
              (fun blockAndCreated =>
                if blockAndCreated.1.children.isEmpty then
                  (([] : List (String × List BlockToCreate)), Except.ok ())
                else
                  create_blocks server fuel blockAndCreated.2.id
                    blockAndCreated.1.children)
          ((parentBlockId, topLevelBlocksToCreate) ::
              (branches.map Prod.fst).flatten,
           (collect_results (branches.map Prod.snd)).map (fun _ => ()))

/-- `create_blocks` behaves like the single batch call alone: it issues exactly
one create call (for the top-level payloads), makes no recursive call whatever
the children are, and succeeds whenever the batch call succeeds. -/
theorem create_blocks_drained
    (server : String → List BlockToCreate →
      Except AppendBlockChildrenError (List CreatedBlock))
    (fuel : Nat) (parentBlockId : String)
    (blocksToCreate : List BlockWithChildrenToCreate) :
    create_blocks server (fuel + 1) parentBlockId blocksToCreate =
      ([(parentBlockId, blocksToCreate.map (fun b => b.block))],
       match server parentBlockId (blocksToCreate.map (fun b => b.block)) with
       | .ok _ => Except.ok ()
       | .error e => Except.error [e]) := by
  cases hs : server parentBlockId (blocksToCreate.map (fun b => b.block)) with
  | error e => simp [create_blocks, hs]
  | ok createdBlocks => simp [create_blocks, hs, collect_results, Except.map]

/-- A server for the spec's create scenario: the batch create on `"parent"`
returns two created blocks with ids `"id1"`, `"id2"`; any recursive create
would also succeed. -/
def server_c2 : String → List BlockToCreate →
    Except AppendBlockChildrenError (List CreatedBlock) := fun parentBlockId _ =>
  if parentBlockId = "parent" then Except.ok [⟨"id1"⟩, ⟨"id2"⟩]
  else Except.ok [⟨"idc"⟩]

/-- C2 (code bug, at the spec's concrete scenario): creating a two-item list
where only the second item has nested children issues exactly the one batch
create call — and **zero** recursive create calls, although the second item's
children are non-empty and the server stands ready to serve the recursive
create.  `blocks_to_create_iter.by_ref().map(..).collect()` drains the
iterator, so `zip(blocks_to_create_iter, created_blocks)` is empty and the
pairing/recursion code never runs: nested children are silently dropped and
the call reports success. -/
theorem c2_children_never_created :
    (create_blocks server_c2 9 "parent"
        [BlockWithChildrenToCreate.mk (.numberedListItem [.plainText "first"]) [],
         BlockWithChildrenToCreate.mk (.numberedListItem [.plainText "second"])
           [BlockWithChildrenToCreate.mk (.paragraph [.plainText "child"]) []]]).1 =
      [("parent",
        [BlockToCreate.numberedListItem [.plainText "first"],
         BlockToCreate.numberedListItem [.plainText "second"]])] ∧
    (create_blocks server_c2 9 "parent"
        [BlockWithChildrenToCreate.mk (.numberedListItem [.plainText "first"]) [],
         BlockWithChildrenToCreate.mk (.numberedListItem [.plainText "second"])
           [BlockWithChildrenToCreate.mk (.paragraph [.plainText "child"]) []]]).2 =
      Except.ok () ∧
    (BlockWithChildrenToCreate.mk (.numberedListItem [.plainText "second"])
        [BlockWithChildrenToCreate.mk (.paragraph [.plainText "child"]) []]).children ≠
      [] :=
  ⟨rfl, rfl, by simp [BlockWithChildrenToCreate.children]⟩

/-- A server that succeeds on the top-level batch create for `"p"` (assigning
ids `"idA"`, `"idB"`) and fails every other create call. -/
def server_c4 : String → List BlockToCreate →
    Except AppendBlockChildrenError (List CreatedBlock) := fun parentBlockId _ =>
  if parentBlockId = "p" then Except.ok [⟨"idA"⟩, ⟨"idB"⟩]
  else Except.error (.appendFailed ⟨"u"⟩ parentBlockId)

/-- C4 (code bug): with two sibling items that both carry nested children, and a
server under which both recursive sibling sub-creates would fail, the create
pass reports plain success — no failure list at all is produced, so failures
from sibling branches are certainly not all collected.  (Two compounding causes:
the drained iterator means the sibling branches never run, and even the
`collect::<Result<_, _>>()` over branch outcomes would short-circuit at the
first error rather than aggregate.) -/
theorem c4_sibling_failures_not_aggregated :
    (create_blocks server_c4 9 "p"
        [BlockWithChildrenToCreate.mk (.numberedListItem [.plainText "a"])
           [BlockWithChildrenToCreate.mk (.paragraph [.plainText "x"]) []],
         BlockWithChildrenToCreate.mk (.numberedListItem [.plainText "b"])
           [BlockWithChildrenToCreate.mk (.paragraph [.plainText "y"]) []]]).2 =
      Except.ok () ∧
    server_c4 "idA" [.paragraph [.plainText "x"]] =
      Except.error (.appendFailed ⟨"u"⟩ "idA") ∧
    server_c4 "idB" [.paragraph [.plainText "y"]] =
      Except.error (.appendFailed ⟨"u"⟩ "idB") ∧
    (create_blocks server_c4 9 "p"
        [BlockWithChildrenToCreate.mk (.numberedListItem [.plainText "a"])
           [BlockWithChildrenToCreate.mk (.paragraph [.plainText "x"]) []],
         BlockWithChildrenToCreate.mk (.numberedListItem [.plainText "b"])
           [BlockWithChildrenToCreate.mk (.paragraph [.plainText "y"]) []]]).1 =
      [("p",
        [BlockToCreate.numberedListItem [.plainText "a"],
         BlockToCreate.numberedListItem [.plainText "b"]])] :=
  ⟨rfl, rfl, rfl, rfl⟩
